import Mathlib

/-!
Shallow embedding of `src/buzzex.js` (buzzex-gekko-npm), a JS client for the
Buzzex exchange REST API.

Modelling conventions:
* JS strings are Lean `String`; raw byte strings (node `'binary'`/latin1
  encoding) are `List Nat`, with `bytesOfString` mapping a string to its
  code points (faithful for the ASCII/latin1 data the client handles).
* The external collaborators excluded by the spec (the `qs` serializer and
  the crypto primitives from node's `crypto` module, plus base64 codecs)
  are parameters: `qss : Params → String` and a `Hashes` bundle.  The
  library's own logic is embedded concretely.
* A JS object holding request parameters is the record `Params`; fields the
  code reads or writes (`param`, `nonce`, `otp`) are explicit `Option`s
  (`none` = absent/undefined), other caller fields are the opaque `extra`
  association list.
* Asynchrony: a promise that settles is `some v`, a promise that never
  settles is `none`.  Network activity is recorded as a trace of `Effect`s.
* A JS function passed in an argument slot is `MaybeParams.fn`; `undefined`
  in the params slot is `MaybeParams.undef`.
-/

namespace Buzzex

/-- Latin1/ASCII view of a JS string as raw bytes (node `'binary'` encoding). -/
def bytesOfString (s : String) : List Nat :=
  s.data.map Char.toNat

/-- Request parameter object (`params` in the source).  `none` models an
absent/`undefined` property; `extra` holds the remaining caller fields. -/
structure Params where
  param : Option String
  nonce : Option Int
  otp   : Option String
  extra : List (String × String)
deriving Repr, DecidableEq

/-- The empty object `{}` the source uses as the params default. -/
def Params.empty : Params :=
  { param := none, nonce := none, otp := none, extra := [] }

/-- External crypto/base64 collaborators (node `crypto`, `Buffer`): the spec
scopes them out, so they are abstract function parameters here. -/
structure Hashes where
  sha256 : List Nat → List Nat
  hmacSha512 : List Nat → List Nat → List Nat
  base64Decode : String → List Nat
  base64Encode : List Nat → String

/-- `getMessageSignature` (src/buzzex.js lines 20-29), translated statement by
statement.  `qss` stands for the external `qs.stringify`; `nonce + message`
in JS coerces the numeric nonce to its decimal string; `digest('binary')`
yields the raw digest bytes, and `hmac.update(path + hash_digest, 'binary')`
feeds the latin1 bytes of the path followed by those digest bytes. -/
def getMessageSignature (H : Hashes) (qss : Params → String) (path : String)
    (request : Params) (secret : String) (nonce : Int) : String :=
  let message := qss request
  let secret_buffer := H.base64Decode secret
  let hash_digest := H.sha256 (bytesOfString (toString nonce ++ message))
  let hmac_digest :=
    H.base64Encode (H.hmacSha512 secret_buffer (bytesOfString path ++ hash_digest))
  hmac_digest

/-- The signature algorithm as the spec words it (§4.1, claim C2):
base64(HMAC-SHA512(key = base64-decode(secret),
message = path ++ SHA-256(nonce-as-string ++ query-string(params)))) with the
SHA-256 digest used as raw bytes.  Kept separate from `getMessageSignature`
so the two can be compared. -/
def signSpec (H : Hashes) (qss : Params → String) (path : String)
    (params : Params) (secret : String) (nonce : Int) : String :=
  H.base64Encode (H.hmacSha512 (H.base64Decode secret)
    (bytesOfString path ++ H.sha256 (bytesOfString (toString nonce ++ qss params))))

/-- Parsed JSON body of an exchange response: the `error` array (absent =
`undefined`) plus the exchange-specific payload, opaque here. -/
structure ApiResponse where
  error : Option (List String)
  payload : String
deriving Repr, DecidableEq

/-- JS `e.startsWith('E')` for the one-character hard-error marker: the
first character of `e` is 'E'. -/
def startsWithE (e : String) : Bool :=
  match e.data with
  | [] => false
  | c :: _ => c == 'E'

/-- JS `e.substr(1)`: `e` without its first character. -/
def substrFrom1 (e : String) : String :=
  String.mk (e.data.drop 1)

/-- The hard-error codes extracted by rawRequest (lines 52-54):
`response.error.filter(e => e.startsWith('E')).map(e => e.substr(1))`. -/
def hardErrorCodes (errs : List String) : List String :=
  (errs.filter (fun e => startsWithE e)).map (fun e => substrFrom1 e)

/-- JS truthiness of `response.error && response.error.length` (line 51). -/
def errTruthy : Option (List String) → Bool
  | none => false
  | some l => l.length != 0

/-- Response validation of `rawRequest` (lines 49-63) applied to the parsed
body: with a non-empty `error` array but no `E`-marked entry it throws
"Buzzex API returned an unknown error"; with at least one `E`-marked entry it
only logs and still returns the response. -/
def processResponse (r : ApiResponse) : Except String ApiResponse :=
  if errTruthy r.error then
    let errs := r.error.getD []
    let error := hardErrorCodes errs
    if error.length = 0 then
      Except.error "Buzzex API returned an unknown error"
    else
      Except.ok r
  else
    Except.ok r

/-- The request handed to `got` by `rawRequest`: final URL (query appended for
POST), headers after the User-Agent injection, serialized body, the raw data
map, timeout and HTTP method. -/
structure HttpRequest where
  url : String
  headers : List (String × String)
  body : String
  data : Params
  timeout : Nat
  method : String
deriving Repr, DecidableEq

/-- `headers['User-Agent'] = ...`: JS property assignment on the header map
(overwrite if present, append otherwise). -/
def setHeader (hs : List (String × String)) (k v : String) :
    List (String × String) :=
  if hs.any (fun h => h.1 == k) then
    hs.map (fun h => if h.1 == k then (k, v) else h)
  else
    hs ++ [(k, v)]

def userAgentVal : String := "Buzzex Javascript API Client"

/-- Request construction of `rawRequest` (lines 32-45): sets the fixed
User-Agent header, serializes `data` into the body, and for POST additionally
appends the serialized data as a query string on the URL. -/
def rawRequestBuild (qss : Params → String) (url : String)
    (headers : List (String × String)) (data : Params) (timeout : Nat)
    (method : String) : HttpRequest :=
  let headers := setHeader headers "User-Agent" userAgentVal
  let body := qss data
  let url := if method == "POST" then url ++ "?" ++ qss data else url
  { url := url, headers := headers, body := body, data := data,
    timeout := timeout, method := method }

/-- Token-grant response body (`request` with `json:` parses it): the field
the client reads is `access_token`. -/
structure TokenBody where
  access_token : String
deriving Repr, DecidableEq

/-- Outcome reported by the `request` transport for the credential-grant POST:
either a parsed body or a transport-level error. -/
inductive TransportResult where
  | success (body : TokenBody)
  | failure (err : String)
deriving Repr, DecidableEq

/-- `getToken` (lines 66-90): wraps the transport callback in a promise.  On
success it resolves with the body; on transport error it only logs — neither
`resolve` nor any rejection runs, so the promise never settles (`none`). -/
def getToken (key secret : String) (r : TransportResult) : Option TokenBody :=
  match key, secret, r with
  | _, _, TransportResult.success body => some body
  | _, _, TransportResult.failure _ => none

/-- The `methods.public` array (line 8). -/
def methodsPublic : List String := ["info", "ticker", "depth", "trades"]

/-- The `methods.private` array (line 9). -/
def methodsPrivate : List String :=
  ["getinfo", "trade", "active-orders", "order-info", "cancel-order"]

/-- Client configuration after construction (`this.config`, line 107). -/
structure Config where
  key : String
  secret : String
  url : String
  version : Nat
  timeout : Nat
  otp : Option String
deriving Repr, DecidableEq

/-- Network activity a call performs: the credential-grant POST of `getToken`
(line 216 / lines 66-90) or an HTTP request issued through `rawRequest`. -/
inductive Effect where
  | tokenFetch (key secret : String)
  | httpRequest (r : HttpRequest)
deriving Repr, DecidableEq

/-- What a JS caller can put in the `params` argument slot: a params object,
a function (re-interpreted as the callback), or `undefined`.  `κ` is the
opaque type of callback functions. -/
inductive MaybeParams (κ : Type) where
  | ps (p : Params)
  | fn (f : κ)
  | undef
deriving Repr, DecidableEq

/-- Observable outcome of one method call: the trace of network effects, the
returned value (`none` = the JS function returned `undefined`, `some req` =
it returned the promise of the in-flight request `req`), and the completion
callback in effect after argument adjustment. -/
structure CallResult (κ : Type) where
  trace : List Effect
  ret : Option HttpRequest
  cb : Option κ
deriving Repr, DecidableEq

/-- Argument adjustment shared by `publicMethod`/`privateMethod`
(lines 144-150 and 177-183): `params = params || {}` then, if `params` is a
function, it becomes the callback and `params` becomes `{}`. -/
def resolveArgs {κ : Type} : MaybeParams κ → Option κ → Params × Option κ
  | MaybeParams.ps p, cb => (p, cb)
  | MaybeParams.fn f, _ => (Params.empty, some f)
  | MaybeParams.undef, cb => (Params.empty, cb)

/-- Argument adjustment of `api` (lines 120-123): only the function check, no
`|| {}` defaulting (an `undefined` params slot is forwarded as-is). -/
def apiResolve {κ : Type} : MaybeParams κ → Option κ → MaybeParams κ × Option κ
  | MaybeParams.fn f, _ => (MaybeParams.ps Params.empty, some f)
  | a, cb => (a, cb)

/-- JS string coercion of a possibly-undefined property, as in
`'/' + params.param`: an absent property prints as the literal "undefined". -/
def jsStr : Option String → String
  | some s => s
  | none => "undefined"

/-- `publicMethod` (lines 143-167): builds
`GET {cfg.url}/api/v1/{method}/{params.param}` with empty caller headers,
starts the request and returns its promise. -/
def publicMethod {κ : Type} (qss : Params → String) (cfg : Config)
    (method : String) (arg : MaybeParams κ) (callback : Option κ) :
    CallResult κ :=
  let pc := resolveArgs arg callback
  let params := pc.1
  let cb := pc.2
  let path := "/api/v1/" ++ method
  let url := cfg.url ++ path ++ "/" ++ jsStr params.param
  let response := rawRequestBuild qss url [] params cfg.timeout "GET"
  { trace := [Effect.httpRequest response], ret := some response, cb := cb }

/-- Param normalization of `privateMethod` (lines 185-193): absent →
the empty string; present → `'/' + param` unless the method is "trade",
where it is left unprefixed. -/
def normalizeParam (method : String) (p : Params) : Params :=
  match p.param with
  | none => { p with param := some "" }
  | some s =>
      if method != "trade" then { p with param := some ("/" ++ s) } else p

/-- JS truthiness of `!params.nonce` (line 201): absent or zero is falsy. -/
def nonceFalsy : Option Int → Bool
  | none => true
  | some n => n == 0

/-- Nonce injection (lines 201-203): a falsy nonce is replaced by
`new Date() * 1000` — milliseconds since epoch times 1000, "spoofed"
microseconds.  `nowMs` is the clock value the code reads. -/
def injectNonce (p : Params) (nowMs : Nat) : Params :=
  if nonceFalsy p.nonce then { p with nonce := some ((nowMs : Int) * 1000) }
  else p

/-- OTP injection (lines 205-207): a configured otp overwrites `params.otp`. -/
def injectOtp (p : Params) (otp : Option String) : Params :=
  match otp with
  | some o => { p with otp := some o }
  | none => p

/-- The fully prepared params a private call hands to the transport:
normalization, then nonce injection, then otp injection. -/
def privateAugParams (cfg : Config) (method : String) (p : Params)
    (nowMs : Nat) : Params :=
  injectOtp (injectNonce (normalizeParam method p) nowMs) cfg.otp

/-- `privateMethod` (lines 176-238): the two-phase private flow.  `nowMs` is
the wall clock (ms) at the nonce-injection point; `tokRes` is the settlement
of the `getToken` promise (`none` = it never settles, in which case the
`token.then` continuation never runs and no trading request is issued).  The
JS function has no return statement, so `ret` is always `none`. -/
def privateMethod {κ : Type} (qss : Params → String) (H : Hashes)
    (cfg : Config) (method : String) (arg : MaybeParams κ)
    (callback : Option κ) (nowMs : Nat) (tokRes : Option TokenBody) :
    CallResult κ :=
  let pc := resolveArgs arg callback
  let params0 := pc.1
  let cb := pc.2
  let params1 := normalizeParam method params0
  let path := "/api/v1/trading/" ++ method
  let url := cfg.url ++ path ++ (params1.param.getD "")
  let params2 := injectOtp (injectNonce params1 nowMs) cfg.otp
  let _signature :=
    getMessageSignature H qss path params2 cfg.secret (params2.nonce.getD 0)
  match tokRes with
  | some value =>
      let headers := [("Authorization", "Bearer " ++ value.access_token)]
      let header_method := if method == "trade" then "POST" else "GET"
      let response :=
        rawRequestBuild qss url headers params2 cfg.timeout header_method
      { trace := [Effect.tokenFetch cfg.key cfg.secret,
                  Effect.httpRequest response],
        ret := none, cb := cb }
  | none =>
      { trace := [Effect.tokenFetch cfg.key cfg.secret], ret := none, cb := cb }

/-- `api` (lines 117-134): routes by method name; an unrecognized name throws
synchronously (`Except.error`, carrying the JS error message) before any
effect. -/
def api {κ : Type} (qss : Params → String) (H : Hashes) (cfg : Config)
    (method : String) (arg : MaybeParams κ) (callback : Option κ)
    (nowMs : Nat) (tokRes : Option TokenBody) :
    Except String (CallResult κ) :=
  let ac := apiResolve arg callback
  if methodsPublic.contains method then
    Except.ok (publicMethod qss cfg method ac.1 ac.2)
  else if methodsPrivate.contains method then
    Except.ok (privateMethod qss H cfg method ac.1 ac.2 nowMs tokRes)
  else
    Except.error (method ++ " is not a valid API method.")

/-- The (first) HTTP request appearing in a call's effect trace. -/
def requestOf {κ : Type} (r : CallResult κ) : Option HttpRequest :=
  r.trace.findSome? (fun e =>
    match e with
    | Effect.httpRequest req => some req
    | _ => none)

/-- Effect trace of an `api` call; a synchronous throw produced no effects. -/
def traceOf {κ : Type} : Except String (CallResult κ) → List Effect
  | Except.ok r => r.trace
  | Except.error _ => []

/-- Number of token fetches (credential-grant POSTs) in a trace. -/
def tokenFetchCount (t : List Effect) : Nat :=
  (t.filter (fun e =>
    match e with
    | Effect.tokenFetch _ _ => true
    | _ => false)).length

/-! Concrete instances of the external collaborators, used to evaluate the
embedding on closed inputs. -/

/-- A concrete query-string serializer standing in for `qs.stringify` in
closed evaluations (plain `k=v&...`, skipping absent fields). -/
def qsSimple (p : Params) : String :=
  let fields :=
    (match p.param with | some s => [("param", s)] | none => []) ++
      (match p.nonce with | some n => [("nonce", toString n)] | none => []) ++
      (match p.otp with | some o => [("otp", o)] | none => []) ++
      p.extra
  String.intercalate "&" (fields.map (fun kv => kv.1 ++ "=" ++ kv.2))

/-- Concrete stand-ins for the crypto primitives, for closed evaluations. -/
def hashesTest : Hashes where
  sha256 := fun b => b
  hmacSha512 := fun k m => k ++ m
  base64Decode := bytesOfString
  base64Encode := fun b => String.intercalate "." (b.map toString)

/-- A concrete client configuration (the source defaults of lines 13-17). -/
def cfgTest : Config where
  key := "apikey"
  secret := "apisecret"
  url := "https://api.buzzex.io"
  version := 0
  timeout := 5000
  otp := none

/-- A concrete token-grant body. -/
def tokenTest : TokenBody where
  access_token := "tok123"

/-! ## Claim theorems -/

/-- C2: `getMessageSignature(path, params, secret, nonce)` equals
base64(HMAC-SHA512(key = base64-decode(secret), message = path ++
SHA-256(nonce-as-string ++ query-string(params)))) with the SHA-256 digest
used as raw bytes — i.e. it coincides with the spec-worded `signSpec` for
every choice of the external serializer and crypto primitives. -/
theorem getMessageSignature_eq_signSpec (H : Hashes) (qss : Params → String)
    (path : String) (p : Params) (secret : String) (nonce : Int) :
    getMessageSignature H qss path p secret nonce =
      signSpec H qss path p secret nonce := rfl

/-- C3 (code bug): on a transport-level error the `getToken` promise never
settles (the error branch only logs — neither `resolve` nor any rejection
runs), instead of settling with the error as the spec requires; on success
it resolves with the parsed body. -/
theorem getToken_transport_error_never_settles :
    getToken "apikey" "apisecret" (TransportResult.failure "ECONNREFUSED")
        = none ∧
      getToken "apikey" "apisecret" (TransportResult.success tokenTest)
        = some tokenTest :=
  ⟨rfl, rfl⟩

/-- C10: a function passed in the params slot of `api`, `publicMethod` or
`privateMethod` is re-interpreted as the completion callback with the
parameter map defaulting to `{}` — identical behaviour to passing `{}` and
the callback explicitly. -/
theorem fn_in_params_slot_is_callback {κ : Type} (qss : Params → String)
    (H : Hashes) (cfg : Config) (m : String) (f : κ) (nowMs : Nat)
    (tokRes : Option TokenBody) :
    api qss H cfg m (MaybeParams.fn f) none nowMs tokRes =
        api qss H cfg m (MaybeParams.ps Params.empty) (some f) nowMs tokRes ∧
      publicMethod qss cfg m (MaybeParams.fn f) none =
        publicMethod qss cfg m (MaybeParams.ps Params.empty) (some f) ∧
      privateMethod qss H cfg m (MaybeParams.fn f) none nowMs tokRes =
        privateMethod qss H cfg m (MaybeParams.ps Params.empty) (some f) nowMs
          tokRes :=
  ⟨rfl, rfl, rfl⟩

/-- C1 (code bug): an unrecognized method name throws synchronously with no
network effect, and a public call returns the promise of its request — but a
private call returns `undefined` (`ret = none`): `privateMethod` has no
return statement (its `return response` sits inside the `token.then`
callback), so `api` does not return a promise-like result for private
methods. -/
theorem api_private_returns_undefined :
    (api qsSimple hashesTest cfgTest "bogus-method"
        (MaybeParams.ps Params.empty : MaybeParams Unit) none 1
        (some tokenTest) =
      Except.error "bogus-method is not a valid API method.") ∧
    traceOf (api qsSimple hashesTest cfgTest "bogus-method"
        (MaybeParams.ps Params.empty : MaybeParams Unit) none 1
        (some tokenTest)) = [] ∧
    (api qsSimple hashesTest cfgTest "getinfo"
        (MaybeParams.ps Params.empty : MaybeParams Unit) none 1
        (some tokenTest)).map (fun r => r.ret) = Except.ok none ∧
    (api qsSimple hashesTest cfgTest "ticker"
        (MaybeParams.ps Params.empty : MaybeParams Unit) none 1
        (some tokenTest)).map (fun r => r.ret.isSome) = Except.ok true :=
  ⟨rfl, rfl, rfl, rfl⟩

/-- C8: the computed signature is never attached to the outgoing request:
the private call's observable behaviour is identical for any two choices of
the crypto primitives, and the issued request's headers are exactly the
Authorization bearer header plus the transport's fixed User-Agent header. -/
theorem privateMethod_signature_not_attached {κ : Type}
    (qss : Params → String) (H H2 : Hashes) (cfg : Config) (m : String)
    (arg : MaybeParams κ) (cb : Option κ) (nowMs : Nat)
    (tokRes : Option TokenBody) (value : TokenBody) :
    privateMethod qss H cfg m arg cb nowMs tokRes =
        privateMethod qss H2 cfg m arg cb nowMs tokRes ∧
      (requestOf (privateMethod qss H cfg m arg cb nowMs (some value))).map
          (fun r => r.headers) =
        some [("Authorization", "Bearer " ++ value.access_token),
              ("User-Agent", userAgentVal)] :=
  ⟨rfl, rfl⟩

/-! Helper lemmas shared by several claim proofs. -/

theorem normalizeParam_nonce (m : String) (p : Params) :
    (normalizeParam m p).nonce = p.nonce := by
  unfold normalizeParam
  cases p.param
  · rfl
  · dsimp only
    split <;> rfl

theorem injectOtp_nonce (p : Params) (otp : Option String) :
    (injectOtp p otp).nonce = p.nonce := by
  unfold injectOtp
  cases otp <;> rfl

theorem injectNonce_nonce (p : Params) (nowMs : Nat) :
    (injectNonce p nowMs).nonce =
      if nonceFalsy p.nonce then some ((nowMs : Int) * 1000) else p.nonce := by
  unfold injectNonce
  split <;> rename_i h <;> simp [h]

/-- The (single) HTTP request a private call issues once the token promise
has resolved, spelled out. -/
theorem privateMethod_request {κ : Type} (qss : Params → String) (H : Hashes)
    (cfg : Config) (m : String) (p : Params) (cb : Option κ) (nowMs : Nat)
    (value : TokenBody) :
    requestOf (privateMethod qss H cfg m (MaybeParams.ps p) cb nowMs
        (some value)) =
      some (rawRequestBuild qss
        (cfg.url ++ ("/api/v1/trading/" ++ m) ++
          ((normalizeParam m p).param.getD ""))
        [("Authorization", "Bearer " ++ value.access_token)]
        (privateAugParams cfg m p nowMs) cfg.timeout
        (if m == "trade" then "POST" else "GET")) := rfl

/-- C4 (amended): a caller-supplied *nonzero* nonce is trusted as-is; an
absent nonce — or the falsy nonce `0`, which the truthiness test
`!params.nonce` also treats as absent — is replaced by the clock value in
"spoofed" microseconds, `nowMs * 1000`, a positive integer equal to the
wall-clock time at call start expressed in microsecond units at millisecond
resolution.  The transmitted params are exactly the augmented ones. -/
theorem privateMethod_nonce_handling {κ : Type} (qss : Params → String)
    (H : Hashes) (cfg : Config) (m : String) (p : Params) (cb : Option κ)
    (nowMs : Nat) (value : TokenBody) (hpos : 0 < nowMs) :
    (∀ n : Int, p.nonce = some n → ¬n = 0 →
      (privateAugParams cfg m p nowMs).nonce = some n) ∧
    (nonceFalsy p.nonce = true →
      (privateAugParams cfg m p nowMs).nonce = some ((nowMs : Int) * 1000) ∧
        0 < (nowMs : Int) * 1000) ∧
    (requestOf (privateMethod qss H cfg m (MaybeParams.ps p) cb nowMs
        (some value))).map (fun r => r.data) =
      some (privateAugParams cfg m p nowMs) := by
  refine ⟨?_, ?_, rfl⟩
  · intro n hn hnz
    have hf : nonceFalsy (normalizeParam m p).nonce = false := by
      rw [normalizeParam_nonce, hn]
      simp [nonceFalsy, hnz]
    unfold privateAugParams
    rw [injectOtp_nonce, injectNonce_nonce, hf]
    simp [normalizeParam_nonce, hn]
  · intro hf
    have hf2 : nonceFalsy (normalizeParam m p).nonce = true := by
      rw [normalizeParam_nonce]
      exact hf
    refine ⟨?_, ?_⟩
    · unfold privateAugParams
      rw [injectOtp_nonce, injectNonce_nonce, hf2]
      simp
    · have h1 : (0 : Int) < (nowMs : Int) := by exact_mod_cast hpos
      omega

theorem privateMethod_nonce_handling_witness :
    0 < 7 ∧
      ((privateAugParams cfgTest "getinfo" Params.empty 7).nonce =
          some ((7 : Nat) * 1000 : Int) ∧
        0 < ((7 : Nat) * 1000 : Int)) :=
  ⟨by decide,
    (privateMethod_nonce_handling qsSimple hashesTest cfgTest "getinfo"
      Params.empty (none : Option Unit) 7 tokenTest (by decide)).2.1
      (by decide)⟩

/-- C4 (counterexample): a caller-supplied nonce of `0` is *not* left
unchanged — `!params.nonce` is a JS truthiness test, so the falsy value `0`
is overwritten with the clock-derived nonce. -/
theorem nonce_zero_overwritten :
    (requestOf (privateMethod qsSimple hashesTest cfgTest "getinfo"
        (MaybeParams.ps
          { param := none, nonce := some 0, otp := none, extra := [] } :
          MaybeParams Unit)
        none 5 (some tokenTest))).map (fun r => r.data.nonce) =
      some (some 5000) ∧
    (requestOf (privateMethod qsSimple hashesTest cfgTest "getinfo"
        (MaybeParams.ps
          { param := none, nonce := some 0, otp := none, extra := [] } :
          MaybeParams Unit)
        none 5 (some tokenTest))).map (fun r => r.data.nonce) ≠
      some (some 0) :=
  ⟨by decide, by decide⟩

/-- C5 (amended): `params.param` is normalized (absent → empty string;
present and not "trade" → '/'-prefixed) and the normalized value is appended
to `{baseUrl}/api/v1/trading/{methodName}` in *every* case — for "trade" the
parameter is appended verbatim with no '/' separator, directly after the
method name, rather than being kept out of the URL; it also remains in the
transmitted params.  For POST ("trade") the serialized params are further
appended as a query string by the transport. -/
theorem privateMethod_url_and_params {κ : Type} (qss : Params → String)
    (H : Hashes) (cfg : Config) (m : String) (p : Params) (cb : Option κ)
    (nowMs : Nat) (value : TokenBody) :
    (p.param = none →
      (requestOf (privateMethod qss H cfg m (MaybeParams.ps p) cb nowMs
          (some value))).map (fun r => r.url) =
        some (cfg.url ++ ("/api/v1/trading/" ++ m) ++
          (if m == "trade" then
            "?" ++ qss (privateAugParams cfg m p nowMs)
          else ""))) ∧
    (∀ s, p.param = some s → ¬m = "trade" →
      (requestOf (privateMethod qss H cfg m (MaybeParams.ps p) cb nowMs
          (some value))).map (fun r => r.url) =
        some (cfg.url ++ ("/api/v1/trading/" ++ m) ++ ("/" ++ s))) ∧
    (∀ s, p.param = some s → m = "trade" →
      (requestOf (privateMethod qss H cfg m (MaybeParams.ps p) cb nowMs
          (some value))).map (fun r => r.url) =
        some (cfg.url ++ ("/api/v1/trading/" ++ m) ++ s ++
          ("?" ++ qss (privateAugParams cfg m p nowMs)))) ∧
    (requestOf (privateMethod qss H cfg m (MaybeParams.ps p) cb nowMs
        (some value))).map (fun r => r.data) =
      some (privateAugParams cfg m p nowMs) ∧
    (requestOf (privateMethod qss H cfg m (MaybeParams.ps p) cb nowMs
        (some value))).map (fun r => r.method) =
      some (if m == "trade" then "POST" else "GET") := by
  refine ⟨?_, ?_, ?_, rfl, rfl⟩
  · intro hp
    rw [privateMethod_request]
    by_cases hm : m = "trade"
    · subst hm
      simp [rawRequestBuild, normalizeParam, hp, String.append_assoc]
      rfl
    · have hb : (m == "trade") = false := by simp [hm]
      simp [rawRequestBuild, normalizeParam, hp, hb]
  · intro s hs hm
    have hb : (m == "trade") = false := by simp [hm]
    rw [privateMethod_request]
    simp [rawRequestBuild, normalizeParam, hs, hb, hm]
  · intro s hs hm
    subst hm
    rw [privateMethod_request]
    simp [rawRequestBuild, normalizeParam, hs, String.append_assoc]

theorem privateMethod_url_and_params_witness :
    (requestOf (privateMethod qsSimple hashesTest cfgTest "trade"
        (MaybeParams.ps
          { param := some "buy", nonce := some 7, otp := none, extra := [] } :
          MaybeParams Unit)
        none 5 (some tokenTest))).map (fun r => r.url) =
      some (cfgTest.url ++ ("/api/v1/trading/" ++ "trade") ++ "buy" ++
        ("?" ++ qsSimple (privateAugParams cfgTest "trade"
          { param := some "buy", nonce := some 7, otp := none, extra := [] }
          5))) :=
  (privateMethod_url_and_params qsSimple hashesTest cfgTest "trade"
    { param := some "buy", nonce := some 7, otp := none, extra := [] }
    (none : Option Unit) 5 tokenTest).2.2.1 "buy" rfl rfl

/-- C5 (counterexample): for the "trade" method a supplied free-form
parameter is *not* kept out of the URL — it is appended verbatim right after
the method name, yielding the mangled path `.../trading/tradebuy`. -/
theorem trade_param_appended_to_url :
    (requestOf (privateMethod qsSimple hashesTest cfgTest "trade"
        (MaybeParams.ps
          { param := some "buy", nonce := some 7, otp := none, extra := [] } :
          MaybeParams Unit)
        none 5 (some tokenTest))).map (fun r => r.url) =
      some "https://api.buzzex.io/api/v1/trading/tradebuy?param=buy&nonce=7" ∧
    (requestOf (privateMethod qsSimple hashesTest cfgTest "trade"
        (MaybeParams.ps
          { param := some "buy", nonce := some 7, otp := none, extra := [] } :
          MaybeParams Unit)
        none 5 (some tokenTest))).map (fun r => r.url) ≠
      some "https://api.buzzex.io/api/v1/trading/trade?param=buy&nonce=7" :=
  ⟨by decide, by decide⟩

/-- C9 (amended): a public call issues
`GET {baseUrl}/api/v1/{method}/{params.param}` with no caller-supplied
headers (only the transport's User-Agent) and returns the promise of that
request — but the '/' separator is appended unconditionally, followed by the
JS string coercion of `params.param`, so an absent parameter yields the
literal path segment "undefined" rather than no segment. -/
theorem publicMethod_request_shape {κ : Type} (qss : Params → String)
    (cfg : Config) (m : String) (p : Params) (cb : Option κ) :
    (requestOf (publicMethod qss cfg m (MaybeParams.ps p) cb)).map
        (fun r => r.url) =
      some (cfg.url ++ ("/api/v1/" ++ m) ++ "/" ++ jsStr p.param) ∧
    (∀ s, p.param = some s →
      (requestOf (publicMethod qss cfg m (MaybeParams.ps p) cb)).map
          (fun r => r.url) =
        some (cfg.url ++ ("/api/v1/" ++ m) ++ "/" ++ s)) ∧
    (p.param = none →
      (requestOf (publicMethod qss cfg m (MaybeParams.ps p) cb)).map
          (fun r => r.url) =
        some (cfg.url ++ ("/api/v1/" ++ m) ++ "/" ++ "undefined")) ∧
    (requestOf (publicMethod qss cfg m (MaybeParams.ps p) cb)).map
        (fun r => r.method) = some "GET" ∧
    (requestOf (publicMethod qss cfg m (MaybeParams.ps p) cb)).map
        (fun r => r.headers) = some [("User-Agent", userAgentVal)] ∧
    (requestOf (publicMethod qss cfg m (MaybeParams.ps p) cb)).map
        (fun r => r.data) = some p ∧
    (publicMethod qss cfg m (MaybeParams.ps p) cb).ret =
      requestOf (publicMethod qss cfg m (MaybeParams.ps p) cb) := by
  refine ⟨rfl, ?_, ?_, rfl, rfl, rfl, rfl⟩
  · intro s hs
    simp [publicMethod, requestOf, rawRequestBuild, setHeader, resolveArgs,
      jsStr, hs]
  · intro hp
    simp [publicMethod, requestOf, rawRequestBuild, setHeader, resolveArgs,
      jsStr, hp]

theorem publicMethod_request_shape_witness :
    (requestOf (publicMethod qsSimple cfgTest "ticker"
        (MaybeParams.ps Params.empty : MaybeParams Unit) none)).map
        (fun r => r.url) =
      some (cfgTest.url ++ ("/api/v1/" ++ "ticker") ++ "/" ++ "undefined") :=
  (publicMethod_request_shape qsSimple cfgTest "ticker" Params.empty
    (none : Option Unit)).2.2.1 rfl

/-- C9 (counterexample): with `params.param` absent, the public URL is not
`{baseUrl}/api/v1/{method}` — `'/' + params.param` coerces the undefined
property to the string "undefined", producing a spurious path segment. -/
theorem publicMethod_absent_param_undefined_segment :
    (requestOf (publicMethod qsSimple cfgTest "ticker"
        (MaybeParams.ps Params.empty : MaybeParams Unit) none)).map
        (fun r => r.url) =
      some "https://api.buzzex.io/api/v1/ticker/undefined" ∧
    (requestOf (publicMethod qsSimple cfgTest "ticker"
        (MaybeParams.ps Params.empty : MaybeParams Unit) none)).map
        (fun r => r.url) ≠
      some "https://api.buzzex.io/api/v1/ticker" :=
  ⟨by decide, by decide⟩

/-- C6: with a non-empty `error` array containing no entry starting with the
hard-error marker 'E', the call fails with the unknown-error message; with at
least one 'E'-marked entry it does not raise and resolves with the parsed
response, and each marked entry contributes its code with the leading 'E'
stripped (`substr(1)`), e.g. "EGeneral:Invalid" yields "General:Invalid". -/
theorem processResponse_error_handling (errs : List String) (payload : String)
    (hne : errs ≠ []) :
    ((∀ e ∈ errs, startsWithE e = false) →
      processResponse { error := some errs, payload := payload } =
        Except.error "Buzzex API returned an unknown error") ∧
    ((∃ e ∈ errs, startsWithE e = true) →
      processResponse { error := some errs, payload := payload } =
        Except.ok { error := some errs, payload := payload }) ∧
    (∀ e ∈ errs, startsWithE e = true →
      substrFrom1 e ∈ hardErrorCodes errs ∧ "E" ++ substrFrom1 e = e) ∧
    hardErrorCodes ["EGeneral:Invalid"] = ["General:Invalid"] := by
  have hT : errTruthy (some errs) = true := by
    simp [errTruthy, List.length_eq_zero, hne]
  refine ⟨?_, ?_, ?_, by decide⟩
  · intro h
    have hfilter : errs.filter (fun e => startsWithE e) = [] :=
      List.filter_eq_nil_iff.mpr (by intro a ha; simp [h a ha])
    simp [processResponse, hT, hardErrorCodes, hfilter]
  · rintro ⟨e, he, hs⟩
    have hfilter : errs.filter (fun e => startsWithE e) ≠ [] := by
      intro hnil
      have := List.filter_eq_nil_iff.mp hnil e he
      simp [hs] at this
    have hlen :
        ((errs.filter (fun e => startsWithE e)).map
          (fun e => substrFrom1 e)).length ≠ 0 := by
      simpa [List.length_eq_zero] using hfilter
    simp only [processResponse, hT, if_true, Option.getD_some, hardErrorCodes]
    simp only [hlen, if_false, ite_eq_right_iff]
  · intro e he hs
    refine ⟨List.mem_map_of_mem _ (List.mem_filter.mpr ⟨he, by simp [hs]⟩), ?_⟩
    cases e with
    | mk l =>
      cases l with
      | nil => simp [startsWithE] at hs
      | cons c cs =>
        have hc : c = 'E' := by
          have := hs
          unfold startsWithE at this
          exact eq_of_beq this
        subst hc
        rfl

theorem processResponse_error_handling_witness :
    (["Warning:Foo"] : List String) ≠ [] ∧
      processResponse { error := some ["Warning:Foo"], payload := "p" } =
        Except.error "Buzzex API returned an unknown error" :=
  ⟨by decide,
    (processResponse_error_handling ["Warning:Foo"] "p" (by decide)).1
      (by decide)⟩

/-- C6 also fixes the behaviour on hard-marked entries on a concrete input:
`{error: ['EGeneral:Invalid']}` resolves and strips the marker. -/
theorem hardError_strip_example :
    processResponse { error := some ["EGeneral:Invalid"], payload := "p" } =
      Except.ok { error := some ["EGeneral:Invalid"], payload := "p" } :=
  rfl

/-- C7: a public `api` call performs no token fetch; a private `api` call
performs exactly one token fetch (the credential-grant POST is issued
whether or not the token promise ever settles). -/
theorem api_token_fetch_count {κ : Type} (qss : Params → String) (H : Hashes)
    (cfg : Config) (p : Params) (cb : Option κ) (nowMs : Nat)
    (tokRes : Option TokenBody) (m : String) :
    (m ∈ methodsPublic →
      tokenFetchCount (traceOf (api qss H cfg m (MaybeParams.ps p) cb nowMs
        tokRes)) = 0) ∧
    (m ∈ methodsPrivate →
      tokenFetchCount (traceOf (api qss H cfg m (MaybeParams.ps p) cb nowMs
        tokRes)) = 1) := by
  constructor
  · intro h
    simp only [methodsPublic, List.mem_cons, List.not_mem_nil, or_false] at h
    rcases h with rfl | rfl | rfl | rfl <;> rfl
  · intro h
    simp only [methodsPrivate, List.mem_cons, List.not_mem_nil, or_false] at h
    rcases h with rfl | rfl | rfl | rfl | rfl <;> cases tokRes <;> rfl

theorem api_token_fetch_count_witness :
    "ticker" ∈ methodsPublic ∧ "getinfo" ∈ methodsPrivate ∧
      tokenFetchCount (traceOf (api qsSimple hashesTest cfgTest "ticker"
        (MaybeParams.ps Params.empty : MaybeParams Unit) none 1
        (some tokenTest))) = 0 ∧
      tokenFetchCount (traceOf (api qsSimple hashesTest cfgTest "getinfo"
        (MaybeParams.ps Params.empty : MaybeParams Unit) none 1
        (some tokenTest))) = 1 :=
  ⟨by decide, by decide,
    (api_token_fetch_count qsSimple hashesTest cfgTest Params.empty
      (none : Option Unit) 1 (some tokenTest) "ticker").1 (by decide),
    (api_token_fetch_count qsSimple hashesTest cfgTest Params.empty
      (none : Option Unit) 1 (some tokenTest) "getinfo").2 (by decide)⟩

end Buzzex
